import Mathlib

/-!
Shallow embedding of `src/scripts/domain-finder.py`.

Strings are modelled as `List Char` (named `Str` below) so that the
character-level transforms of the script (regex substitutions, `strip`,
`lower`) become structurally recursive Lean functions.  External
processes (the `claude`, `whois` and `nslookup` subprocess invocations)
are modelled by outcome values / oracles passed in explicitly.
-/

namespace DomainFinder

/-- Strings modelled as lists of characters. -/
abbrev Str := List Char

/-- Whitespace characters removed by Python `str.strip()` (ASCII range):
space, tab, newline, carriage return, vertical tab, form feed. -/
def pyIsSpace (c : Char) : Bool :=
  c.toNat = 32 || c.toNat = 9 || c.toNat = 10 || c.toNat = 13 ||
  c.toNat = 11 || c.toNat = 12

/-- Python `str.strip()`: drop leading and trailing whitespace. -/
def pyStrip (s : Str) : Str :=
  ((s.dropWhile pyIsSpace).reverse.dropWhile pyIsSpace).reverse

/-- Python `str.lower()` (ASCII behaviour), mapping `Char.toLower`. -/
def toLowerStr (s : Str) : Str := s.map Char.toLower

/-- Character class of the regex `[\d\.\-\*\s]` in
`re.sub(r'^[\d\.\-\*\s]+', '', name)` (line 66), ASCII range:
digits, dot, hyphen, asterisk, whitespace. -/
def isJunk (c : Char) : Bool :=
  (48 ≤ c.toNat && c.toNat ≤ 57) || c.toNat = 46 || c.toNat = 45 ||
  c.toNat = 42 || pyIsSpace c

/-- Character class `[a-z]`; the complement is removed by
`re.sub(r'[^a-z]', '', name)` (line 67). -/
def isLowerAZ (c : Char) : Bool := 97 ≤ c.toNat && c.toNat ≤ 122

/-- If `p` is a prefix of `s`, return the remainder of `s`, else `none`. -/
def dropPre : Str → Str → Option Str
  | [], s => some s
  | _ :: _, [] => none
  | c :: cs, d :: ds => if c = d then dropPre cs ds else none

/-- The regex substitution `re.sub(r'\.com$', '', name)` (line 65):
remove one trailing `.com` if present. -/
def stripComSuffix (s : Str) : Str :=
  match dropPre ['m', 'o', 'c', '.'] s.reverse with
  | some rest => rest.reverse
  | none => s

/-- The per-line cleaning transform of `generate_domains`
(lines 64-67 of `domain-finder.py`):
`strip().lower()`, drop a trailing `.com`, drop leading
digits/dots/hyphens/asterisks/whitespace, keep only `[a-z]`. -/
def cleanLine (line : Str) : Str :=
  ((stripComSuffix (toLowerStr (pyStrip line))).dropWhile isJunk).filter
    isLowerAZ

/-- The parsing loop of `generate_domains` (lines 60-72): clean each
line, keep the result when it is nonempty, at least 3 characters long
and not already in `existing`, then truncate to the first 20. -/
def parse_domains (lines : List Str) (existing : List Str) : List Str :=
  (lines.filterMap (fun line =>
    let name := cleanLine line
    if name ≠ [] ∧ 3 ≤ name.length ∧ name ∉ existing then some name
    else none)).take 20

/-- Python `existing[-50:]`: the last (up to) 50 elements. -/
def lastN (n : Nat) (l : List Str) : List Str := l.drop (l.length - n)

/-- The exclusion hint embedded in the prompt (line 28):
`", ".join(existing[-50:]) if existing else "none yet"`. -/
def exclude_list (existing : List Str) : Str :=
  if existing.isEmpty then "none yet".data
  else List.intercalate ", ".data (lastN 50 existing)

/-- Outcome of the `claude` subprocess invocation in `generate_domains`:
a completed run with return code and captured output streams, a
timeout (`subprocess.TimeoutExpired`), or an absent executable
(`FileNotFoundError`). -/
inductive GenOutcome where
  | ok (returncode : Int) (stdout stderr : Str)
  | timeout
  | notFound
deriving DecidableEq

/-- The whole of `generate_domains` (lines 25-79) given the subprocess
outcome: a nonzero return code or a timeout yields `[]`; an absent
executable is fatal (`sys.exit(1)`), modelled as `none`; otherwise the
stripped stdout is split on newlines and parsed. -/
def generate_domains (res : GenOutcome) (existing : List Str) :
    Option (List Str) :=
  match res with
  | .ok rc stdout _ =>
    if rc ≠ 0 then some []
    else some (parse_domains ((pyStrip stdout).splitOn '\n') existing)
  | .timeout => some []
  | .notFound => none

/-- Outcome of a `whois` / `nslookup` subprocess invocation inside the
availability checkers: a completed run (return code unused by the
checkers) with captured streams, a timeout, or any other exception. -/
inductive ProcOutcome where
  | ok (returncode : Int) (stdout stderr : Str)
  | timeout
  | exn
deriving DecidableEq

/-- Boolean test that `p` is a prefix of `s` (character lists). -/
def startsWith : Str → Str → Bool
  | [], _ => true
  | _ :: _, [] => false
  | c :: cs, d :: ds => c == d && startsWith cs ds

/-- Boolean substring containment, Python `p in s` for strings:
`p` occurs contiguously inside `s`. -/
def hasSub (p : Str) : Str → Bool
  | [] => p.isEmpty
  | s@(_ :: rest) => startsWith p s || hasSub p rest

/-- The fixed phrase list `available_patterns` of `check_domain_whois`
(lines 94-101). -/
def available_patterns : List Str :=
  ["no match".data, "not found".data, "no entries found".data,
   "no data found".data, "domain not found".data, "no whois data".data]

/-- The function `check_domain_whois` (lines 82-108) given the `whois`
subprocess outcome: on completion, lowercase and concatenate the output
streams and test each pattern for substring containment; a timeout or
any other exception yields `false`. -/
def check_domain_whois (res : ProcOutcome) : Bool :=
  match res with
  | .ok _ stdout stderr =>
    let output := toLowerStr stdout ++ toLowerStr stderr
    available_patterns.any (fun p => hasSub p output)
  | .timeout => false
  | .exn => false

/-- The phrase `"can't find"` of `check_domain_nslookup`, written
without a literal apostrophe character. -/
def cantFind : Str := "can".data ++ [Char.ofNat 39] ++ "t find".data

/-- The function `check_domain_nslookup` (lines 111-128) given the
`nslookup` subprocess outcome: on completion, test the lowercased
combined output for `"nxdomain"` or a cannot-find phrase; a timeout or
any other exception yields `false`. -/
def check_domain_nslookup (res : ProcOutcome) : Bool :=
  match res with
  | .ok _ stdout stderr =>
    let output := toLowerStr stdout ++ toLowerStr stderr
    hasSub "nxdomain".data output || hasSub cantFind output
  | .timeout => false
  | .exn => false

/-- The function `check_domain` (lines 131-137), with the operating
system modelled by oracles giving each domain its `whois` and
`nslookup` subprocess outcome: whois first, nslookup as fallback. -/
def check_domain (whoisEnv nsEnv : Str → ProcOutcome) (domain : Str) :
    Bool :=
  if check_domain_whois (whoisEnv domain) then true
  else check_domain_nslookup (nsEnv domain)

/-- Instrumented variant of `check_domain` recording in the second
component whether the nslookup fallback subprocess was invoked. -/
def check_domain_trace (whoisEnv nsEnv : Str → ProcOutcome)
    (domain : Str) : Bool × Bool :=
  if check_domain_whois (whoisEnv domain) then (true, false)
  else (check_domain_nslookup (nsEnv domain), true)

/-- The inner per-candidate loop of `main` (lines 165-176): skip
candidates already tested, otherwise append to `all_tested`, check
availability, and append to `available` on success. -/
def processBatch (check : Str → Bool) :
    List Str → List Str → List Str → List Str × List Str
  | tested, avail, [] => (tested, avail)
  | tested, avail, d :: ds =>
    if d ∈ tested then processBatch check tested avail ds
    else
      processBatch check (tested ++ [d])
        (if check d then avail ++ [d] else avail) ds

/-- The driver loop of `main` (lines 145-182), parameterised by the
generator (a function of batch number and tested history, abstracting
`generate_domains` with its subprocess) and the availability checker,
and supplied with fuel since the Python loop may diverge.  State is
`(all_tested, available, batch_num)`; the loop runs while fewer than
`target_total = 100` names are tested, retrying on an empty batch, and
returns the final state on normal termination (`none` = out of fuel). -/
def runLoop (gen : Nat → List Str → List Str) (check : Str → Bool) :
    Nat → List Str → List Str → Nat →
    Option (List Str × List Str × Nat)
  | 0, _, _, _ => none
  | fuel + 1, tested, avail, batchNum =>
    if tested.length < 100 then
      if (gen (batchNum + 1) tested).isEmpty then
        runLoop gen check fuel tested avail (batchNum + 1)
      else
        runLoop gen check fuel
          (processBatch check tested avail (gen (batchNum + 1) tested)).1
          (processBatch check tested avail (gen (batchNum + 1) tested)).2
          (batchNum + 1)
    else some (tested, avail, batchNum)

/-- Contents of `domain-results.txt` as written by `main`
(lines 199-205): an AVAILABLE DOMAINS section and a TESTED section,
each entry suffixed with `.com`, one per line. -/
def resultsFile (available all_tested : List Str) : Str :=
  "AVAILABLE DOMAINS:\n".data
  ++ (available.map (fun d => d ++ ".com\n".data)).flatten
  ++ "\nTESTED (".data ++ (toString all_tested.length).data
  ++ " total):\n".data
  ++ (all_tested.map (fun d => d ++ ".com\n".data)).flatten

/-- Two-character name for index `k < 200`, used by the C2 stub
generator; distinct indices give distinct names. -/
def natName (k : Nat) : Str :=
  [Char.ofNat (97 + k / 20), Char.ofNat (97 + k % 20)]

/-- Stub generator for the end-to-end scenario: batch `b` yields the
20 fresh names of indices `(b-1)*20 .. (b-1)*20+19`. -/
def genStub (b : Nat) (_tested : List Str) : List Str :=
  (List.range 20).map (fun i => natName ((b - 1) * 20 + i))

/-- Stub checker for the end-to-end scenario: every 5th tested name
(indices 4, 9, 14, ...) is available. -/
def checkStub (s : Str) : Bool :=
  decide (s ∈ (List.range 20).map (fun j => natName (5 * j + 4)))

/-- The end-to-end scenario run of the driver loop. -/
def c2res : Option (List Str × List Str × Nat) :=
  runLoop genStub checkStub 10 [] [] 0

/-- Final tested sequence of the end-to-end scenario. -/
def c2tested : List Str := (c2res.getD ([], [], 0)).1

/-- Final available sequence of the end-to-end scenario. -/
def c2avail : List Str := (c2res.getD ([], [], 0)).2.1

/-- Lines of the report file of the end-to-end scenario. -/
def c2lines : List Str :=
  (resultsFile c2avail c2tested).splitOn '\n'

end DomainFinder

/-!
Helper lemmas shared by the claim theorems.
-/

namespace DomainFinder

/-- Dropping while a predicate that holds nowhere on the list is the
identity. -/
theorem dropWhile_eq_self_of_all {p : Char → Bool} {l : Str}
    (h : ∀ c ∈ l, p c = false) : l.dropWhile p = l := by
  cases l with
  | nil => rfl
  | cons a l => simp [List.dropWhile_cons, h a (List.mem_cons_self a l)]

/-- Mapping a function that fixes every element is the identity. -/
theorem map_eq_self_of_all {f : Char → Char} :
    ∀ {l : Str}, (∀ c ∈ l, f c = c) → l.map f = l := by
  intro l h
  induction l with
  | nil => rfl
  | cons a l ih =>
    simp only [List.map_cons, h a (List.mem_cons_self a l)]
    rw [ih (fun c hc => h c (List.mem_cons_of_mem a hc))]

/-- Lowercase ASCII letters are not Python whitespace. -/
theorem lower_not_space {c : Char} (h : isLowerAZ c = true) :
    pyIsSpace c = false := by
  simp only [isLowerAZ, Bool.and_eq_true, decide_eq_true_eq] at h
  simp only [pyIsSpace, Bool.or_eq_false_iff, decide_eq_false_iff_not]
  omega

/-- Lowercase ASCII letters are not in the leading-junk class. -/
theorem lower_not_junk {c : Char} (h : isLowerAZ c = true) :
    isJunk c = false := by
  simp only [isLowerAZ, Bool.and_eq_true, decide_eq_true_eq] at h
  simp only [isJunk, pyIsSpace, Bool.or_eq_false_iff,
    Bool.and_eq_false_iff, decide_eq_false_iff_not]
  omega

/-- Lowercase ASCII letters are fixed by `Char.toLower`. -/
theorem toLower_fixes_lower {c : Char} (h : isLowerAZ c = true) :
    c.toLower = c := by
  simp only [isLowerAZ, Bool.and_eq_true, decide_eq_true_eq] at h
  have hn : ¬(c.toNat ≥ 65 ∧ c.toNat ≤ 90) := by omega
  simp [Char.toLower, hn]

/-- A successful prefix removal only consumes characters of the list. -/
theorem mem_of_dropPre :
    ∀ (p s r : Str), dropPre p s = some r → ∀ c ∈ p, c ∈ s := by
  intro p
  induction p with
  | nil =>
    intro s r _ c hc
    simp at hc
  | cons a as ih =>
    intro s r h c hc
    cases s with
    | nil => simp [dropPre] at h
    | cons b bs =>
      simp only [dropPre] at h
      split at h
      case isTrue hab =>
        rcases List.mem_cons.mp hc with rfl | hmem
        · exact List.mem_cons.mpr (Or.inl hab)
        · exact List.mem_cons.mpr (Or.inr (ih bs r h c hmem))
      case isFalse => exact absurd h (by simp)

/-- Removing a `.com` suffix from an all-letter string is the
identity: such a string has no dot. -/
theorem stripComSuffix_eq_self {s : Str}
    (h : ∀ c ∈ s, isLowerAZ c = true) : stripComSuffix s = s := by
  unfold stripComSuffix
  cases hd : dropPre (['m', 'o', 'c', '.']) s.reverse with
  | none => rfl
  | some rest =>
    exfalso
    have hdot : ('.' : Char) ∈ s.reverse :=
      mem_of_dropPre _ _ _ hd '.' (by simp)
    have hmem : ('.' : Char) ∈ s := List.mem_reverse.mp hdot
    exact absurd (h _ hmem) (by decide)

/-- Full strip is the identity on all-letter strings. -/
theorem pyStrip_eq_self {s : Str}
    (h : ∀ c ∈ s, isLowerAZ c = true) : pyStrip s = s := by
  unfold pyStrip
  rw [dropWhile_eq_self_of_all (fun c hc => lower_not_space (h c hc))]
  rw [dropWhile_eq_self_of_all
    (fun c hc => lower_not_space (h c (List.mem_reverse.mp hc)))]
  exact List.reverse_reverse s

end DomainFinder

/-!
Claim theorems: cleaning transform (C6, C7), within-batch duplicates
(C10), check_domain structure (C1), whois characterisation (C5).
-/

namespace DomainFinder

/-- C6: the name-cleaning transform is idempotent on its own outputs:
a string consisting only of lowercase ASCII letters is returned
unchanged by `cleanLine`. -/
theorem cleanLine_idempotent_on_clean (s : Str)
    (h : ∀ c ∈ s, isLowerAZ c = true) : cleanLine s = s := by
  unfold cleanLine
  rw [pyStrip_eq_self h]
  unfold toLowerStr
  rw [map_eq_self_of_all (fun c hc => toLower_fixes_lower (h c hc))]
  rw [stripComSuffix_eq_self h]
  rw [dropWhile_eq_self_of_all (fun c hc => lower_not_junk (h c hc))]
  exact List.filter_eq_self.mpr h

/-- Witness for C6 at the concrete clean name `"fithabit"`. -/
theorem cleanLine_idempotent_on_clean_witness :
    cleanLine "fithabit".data = "fithabit".data :=
  cleanLine_idempotent_on_clean "fithabit".data (by decide)

/-- C7: concrete cleaning examples: `"1. FitHabit.com"` cleans to
`"fithabit"`, `"* co-ach99"` cleans to `"coach"`, and `"ab"` cleans to
a 2-letter string, which the length-3 minimum rejects, so it never
appears in the parsed output. -/
theorem cleanLine_concrete_examples :
    cleanLine "1. FitHabit.com".data = "fithabit".data ∧
    cleanLine "* co-ach99".data = "coach".data ∧
    (cleanLine "ab".data).length = 2 ∧
    parse_domains ["ab".data] [] = [] :=
  ⟨rfl, rfl, rfl, rfl⟩

/-- C10: within one batch the generator output need not be
duplicate-free: the same cleaned name on two input lines is returned
twice (membership is only tested against `existing`); the driver loop
then restores uniqueness through its per-candidate membership check. -/
theorem parse_domains_batch_duplicates :
    parse_domains ["abc".data, "abc".data] [] =
      ["abc".data, "abc".data] ∧
    ¬ List.Nodup ["abc".data, "abc".data] ∧
    (processBatch (fun _ => false) [] []
      ["abc".data, "abc".data]).1 = ["abc".data] :=
  ⟨rfl, by decide, rfl⟩

/-- C1: `check_domain` is true iff the whois-based check or the
nslookup-based check is true, and the nslookup fallback subprocess is
invoked exactly when the whois check returns false; in particular a
true primary check means the fallback is never invoked. -/
theorem check_domain_or_and_fallback
    (whoisEnv nsEnv : Str → ProcOutcome) (domain : Str) :
    (check_domain whoisEnv nsEnv domain = true ↔
      (check_domain_whois (whoisEnv domain) = true ∨
       check_domain_nslookup (nsEnv domain) = true)) ∧
    ((check_domain_trace whoisEnv nsEnv domain).2 = true ↔
      check_domain_whois (whoisEnv domain) = false) ∧
    (check_domain whoisEnv nsEnv domain =
      (check_domain_trace whoisEnv nsEnv domain).1) := by
  by_cases h : check_domain_whois (whoisEnv domain) = true
  · simp [check_domain, check_domain_trace, h]
  · simp [check_domain, check_domain_trace, h]

/-- Witness for C1: a whois outcome whose output contains
`"no match"` makes `check_domain` true with an erroring nslookup. -/
theorem check_domain_or_and_fallback_witness :
    check_domain (fun _ => ProcOutcome.ok 0 "No match for domain".data [])
      (fun _ => ProcOutcome.exn) [] = true :=
  (check_domain_or_and_fallback
    (fun _ => ProcOutcome.ok 0 "No match for domain".data [])
    (fun _ => ProcOutcome.exn) []).1.mpr (Or.inl (by decide))

end DomainFinder

/-!
Claim theorems: whois characterisation (C5), exclusion handling (C3),
driver-loop invariants (C4, C8, C9) and the end-to-end scenario (C2).
-/

namespace DomainFinder

/-- C5: `check_domain_whois` returns true exactly when the subprocess
completed and one of the fixed phrases occurs as a substring of the
lowercased concatenation of its stdout and stderr; a timeout or any
other exception yields false. -/
theorem check_domain_whois_characterisation (res : ProcOutcome) :
    (check_domain_whois res = true ↔
      ∃ rc out err, res = .ok rc out err ∧
        ∃ p, p ∈ available_patterns ∧
          hasSub p (toLowerStr (out ++ err)) = true) ∧
    check_domain_whois .timeout = false ∧
    check_domain_whois .exn = false := by
  refine ⟨?_, rfl, rfl⟩
  cases res with
  | ok rc out err =>
    simp only [check_domain_whois, List.any_eq_true, toLowerStr,
      List.map_append]
    constructor
    · rintro ⟨p, hp, hsub⟩
      exact ⟨rc, out, err, rfl, p, hp, hsub⟩
    · rintro ⟨rc2, out2, err2, heq, p, hp, hsub⟩
      cases heq
      exact ⟨p, hp, hsub⟩
  | timeout => simp [check_domain_whois]
  | exn => simp [check_domain_whois]

/-- Witness for C5: a completed whois run whose stdout contains
`"NOT FOUND"` is reported available. -/
theorem check_domain_whois_characterisation_witness :
    check_domain_whois (ProcOutcome.ok 1 "Domain NOT FOUND".data []) =
      true :=
  (check_domain_whois_characterisation _).1.mpr
    ⟨1, "Domain NOT FOUND".data, [], rfl, "not found".data,
      by decide, by decide⟩

/-- Counterexample to C3: the tested history IS a hard filter on the
returned candidates (line 69, `name not in existing`): the same raw
line yields a candidate against an empty history but none against a
history already containing the cleaned name. -/
theorem existing_is_hard_filter_cex :
    parse_domains ["abc".data] ["abc".data] = [] ∧
    parse_domains ["abc".data] [] = ["abc".data] ∧
    parse_domains ["abc".data] ["abc".data] ≠
      parse_domains ["abc".data] [] :=
  ⟨rfl, rfl, by decide⟩

/-- C3 (amended): the tested history is embedded in the prompt as an
exclusion hint built only from its last up-to-50 names, and is
additionally applied as a hard filter: no returned candidate is in the
history; at most 20 candidates are returned per call. -/
theorem generator_hint_and_filter :
    (∀ lines existing d, d ∈ parse_domains lines existing →
      d ∉ existing) ∧
    (∀ lines existing, (parse_domains lines existing).length ≤ 20) ∧
    (∀ e1 e2, e1.isEmpty = e2.isEmpty → lastN 50 e1 = lastN 50 e2 →
      exclude_list e1 = exclude_list e2) := by
  refine ⟨?_, ?_, ?_⟩
  · intro lines existing d hd
    have hd2 := List.mem_of_mem_take hd
    rw [List.mem_filterMap] at hd2
    obtain ⟨line, _, hf⟩ := hd2
    dsimp only at hf
    split at hf
    case isTrue hcond =>
      cases hf
      exact hcond.2.2
    case isFalse => exact absurd hf (by simp)
  · intro lines existing
    simp only [parse_domains, List.length_take]
    exact min_le_left _ _
  · intro e1 e2 he hl
    unfold exclude_list
    rw [he, hl]

/-- Witness for C3 (amended): a fresh candidate is not in the given
history. -/
theorem generator_hint_and_filter_witness :
    "xyz".data ∉ (["abc".data] : List Str) :=
  generator_hint_and_filter.1 ["xyz".data] ["abc".data] "xyz".data
    (by decide)

/-- Appending only unseen candidates preserves distinctness of the
tested sequence. -/
theorem processBatch_tested_nodup (check : Str → Bool) :
    ∀ ds tested avail, tested.Nodup →
      ((processBatch check tested avail ds).1).Nodup := by
  intro ds
  induction ds with
  | nil => intro tested avail h; exact h
  | cons d ds ih =>
    intro tested avail h
    by_cases hmem : d ∈ tested
    · simp only [processBatch, if_pos hmem]
      exact ih tested avail h
    · simp only [processBatch, if_neg hmem]
      refine ih _ _ ?_
      rw [List.nodup_append]
      refine ⟨h, List.nodup_singleton d, ?_⟩
      intro a ha hb
      rw [List.mem_singleton] at hb
      subst hb
      exact hmem ha

/-- The tested sequence at the start of a batch is a prefix of the
tested sequence after the batch. -/
theorem processBatch_tested_grows (check : Str → Bool) :
    ∀ ds tested avail, tested <+: (processBatch check tested avail ds).1 := by
  intro ds
  induction ds with
  | nil => intro tested avail; exact List.prefix_refl tested
  | cons d ds ih =>
    intro tested avail
    by_cases hmem : d ∈ tested
    · simp only [processBatch, if_pos hmem]
      exact ih tested avail
    · simp only [processBatch, if_neg hmem]
      exact List.IsPrefix.trans (List.prefix_append tested [d]) (ih _ _)

/-- C4: across any terminating run of the driver loop, starting from a
duplicate-free tested sequence, the final tested sequence is
duplicate-free and extends the initial one (names are appended, never
removed). -/
theorem runLoop_tested_nodup_and_grows
    (gen : Nat → List Str → List Str) (check : Str → Bool) :
    ∀ fuel tested avail bn t a b, tested.Nodup →
      runLoop gen check fuel tested avail bn = some (t, a, b) →
      t.Nodup ∧ tested <+: t := by
  intro fuel
  induction fuel with
  | zero =>
    intro tested avail bn t a b _ h
    exact absurd h (by simp [runLoop])
  | succ fuel ih =>
    intro tested avail bn t a b hnd h
    simp only [runLoop] at h
    split at h
    case isTrue hlt =>
      split at h
      case isTrue hemp => exact ih tested avail (bn + 1) t a b hnd h
      case isFalse hemp =>
        obtain ⟨h1, h2⟩ := ih _ _ (bn + 1) t a b
          (processBatch_tested_nodup check _ tested avail hnd) h
        exact ⟨h1, List.IsPrefix.trans
          (processBatch_tested_grows check _ tested avail) h2⟩
    case isFalse hlt =>
      injection h with h
      cases h
      exact ⟨hnd, List.prefix_refl tested⟩

/-- Witness for C4 at the end-to-end scenario run. -/
theorem runLoop_tested_nodup_and_grows_witness :
    c2tested.Nodup ∧ ([] : List Str) <+: c2tested :=
  runLoop_tested_nodup_and_grows genStub checkStub 10 [] [] 0
    c2tested c2avail 5 List.nodup_nil rfl

/-- One driver iteration with an empty generated batch consumes fuel
and increments the batch counter but leaves tested and available
untouched. -/
theorem runLoop_empty_step (gen : Nat → List Str → List Str)
    (check : Str → Bool) (fuel : Nat) (tested avail : List Str)
    (bn : Nat) (hlt : tested.length < 100)
    (hgen : gen (bn + 1) tested = []) :
    runLoop gen check (fuel + 1) tested avail bn =
      runLoop gen check fuel tested avail (bn + 1) := by
  simp [runLoop, hlt, hgen]

/-- C8: an empty generator batch leaves the tested and available
sequences unchanged and the loop repeats; in particular two empty
calls followed by normal ones just shift the loop two fuel steps with
the batch counter advanced to 2. -/
theorem empty_batch_retries :
    (∀ (gen : Nat → List Str → List Str) (check : Str → Bool) fuel
      (tested avail : List Str) bn, tested.length < 100 →
      gen (bn + 1) tested = [] →
      runLoop gen check (fuel + 1) tested avail bn =
        runLoop gen check fuel tested avail (bn + 1)) ∧
    (∀ (gen : Nat → List Str → List Str) (check : Str → Bool) fuel,
      gen 1 [] = [] → gen 2 [] = [] →
      runLoop gen check (fuel + 2) [] [] 0 =
        runLoop gen check fuel [] [] 2) := by
  constructor
  · intro gen check fuel tested avail bn hlt hgen
    exact runLoop_empty_step gen check fuel tested avail bn hlt hgen
  · intro gen check fuel h1 h2
    rw [runLoop_empty_step gen check (fuel + 1) [] [] 0 (by decide) h1]
    rw [runLoop_empty_step gen check fuel [] [] 1 (by decide) h2]

/-- Witness for C8 with the constantly-empty generator. -/
theorem empty_batch_retries_witness :
    runLoop (fun _ _ => ([] : List Str)) (fun _ => false) 1 [] [] 0 =
      runLoop (fun _ _ => ([] : List Str)) (fun _ => false) 0 [] [] 1 :=
  empty_batch_retries.1 (fun _ _ => []) (fun _ => false) 0 [] [] 0
    (by decide) rfl

/-- A batch appends at most as many names as it contains. -/
theorem processBatch_tested_length (check : Str → Bool) :
    ∀ ds tested avail,
      (processBatch check tested avail ds).1.length ≤
        tested.length + ds.length := by
  intro ds
  induction ds with
  | nil => intro tested avail; simp [processBatch]
  | cons d ds ih =>
    intro tested avail
    by_cases hmem : d ∈ tested
    · simp only [processBatch, if_pos hmem, List.length_cons]
      have := ih tested avail
      omega
    · simp only [processBatch, if_neg hmem, List.length_cons]
      have := ih (tested ++ [d]) (if check d then avail ++ [d] else avail)
      simp only [List.length_append, List.length_singleton] at this
      omega

/-- If every generated batch has at most 20 names, a terminating run
started below the 119 bound ends with between 100 and 119 tested. -/
theorem runLoop_length_bounds (gen : Nat → List Str → List Str)
    (check : Str → Bool)
    (hg : ∀ bn ts, (gen bn ts).length ≤ 20) :
    ∀ fuel tested avail bn t a b, tested.length ≤ 119 →
      runLoop gen check fuel tested avail bn = some (t, a, b) →
      100 ≤ t.length ∧ t.length ≤ 119 := by
  intro fuel
  induction fuel with
  | zero =>
    intro tested avail bn t a b _ h
    exact absurd h (by simp [runLoop])
  | succ fuel ih =>
    intro tested avail bn t a b hlen h
    simp only [runLoop] at h
    split at h
    case isTrue hlt =>
      split at h
      case isTrue hemp => exact ih tested avail (bn + 1) t a b hlen h
      case isFalse hemp =>
        refine ih _ _ (bn + 1) t a b ?_ h
        have h1 := processBatch_tested_length check
          (gen (bn + 1) tested) tested avail
        have h2 := hg (bn + 1) tested
        omega
    case isFalse hlt =>
      injection h with h
      cases h
      exact ⟨by omega, hlen⟩

/-- C9: `generate_domains` parsing returns at most 20 candidates, and
for any generator bounded by 20 names per batch every terminating run
of the driver loop ends with a tested sequence of length at least 100
and at most 119. -/
theorem final_tested_bounds :
    (∀ lines existing, (parse_domains lines existing).length ≤ 20) ∧
    (∀ (gen : Nat → List Str → List Str) (check : Str → Bool) fuel
      (t a : List Str) (b : Nat),
      (∀ bn ts, (gen bn ts).length ≤ 20) →
      runLoop gen check fuel [] [] 0 = some (t, a, b) →
      100 ≤ t.length ∧ t.length ≤ 119) := by
  constructor
  · intro lines existing
    simp only [parse_domains, List.length_take]
    exact min_le_left _ _
  · intro gen check fuel t a b hg h
    exact runLoop_length_bounds gen check hg fuel [] [] 0 t a b
      (by decide) h

/-- Witness for C9 at the end-to-end scenario run. -/
theorem final_tested_bounds_witness :
    100 ≤ c2tested.length ∧ c2tested.length ≤ 119 :=
  final_tested_bounds.2 genStub checkStub 10 c2tested c2avail 5
    (fun bn ts => by simp [genStub]) rfl

end DomainFinder

namespace DomainFinder

/-- C2: end-to-end scenario: with a generator stub yielding 20 fresh
names per call and a checker stub marking every 5th tested name
available, the driver loop terminates after exactly 5 batches with 100
tested and 20 available names, and the report file consists of the
AVAILABLE DOMAINS header, 20 entry lines each ending in `.com`, a
blank line, the TESTED header, 100 entry lines each ending in `.com`,
and a final blank line (124 lines in all). -/
theorem end_to_end_scenario :
    c2res = some (c2tested, c2avail, 5) ∧
    c2tested.length = 100 ∧
    c2avail.length = 20 ∧
    c2lines.length = 124 ∧
    c2lines.getD 0 [] = "AVAILABLE DOMAINS:".data ∧
    ((c2lines.drop 1).take 20).all
      (fun l => startsWith ".com".data.reverse l.reverse) = true ∧
    c2lines.getD 21 ['?'] = [] ∧
    c2lines.getD 22 ['?'] = "TESTED (100 total):".data ∧
    ((c2lines.drop 23).take 100).all
      (fun l => startsWith ".com".data.reverse l.reverse) = true ∧
    c2lines.getD 123 ['?'] = [] :=
  ⟨rfl, rfl, rfl, rfl, rfl, by decide, rfl, rfl, by decide, rfl⟩

end DomainFinder
